import Mathlib

/-!
Verification development for the cc-statusline-rs session-telemetry and
external-lookup cache engine.

Shallow-embedding conventions, used consistently below:
* Rust strings are modelled as lists of characters (`Str := List Char`);
  string literals are written `"...".toList`.
* Rust `f64`/`f32` arithmetic is modelled by exact rational arithmetic (`ℚ`).
* External command invocations (git, gh) are modelled by explicit parameters
  holding the command's observable result; `SystemTime::now` is an explicit
  `now : Nat` parameter (seconds since the epoch).
* Multi-line command output that Rust iterates with `.lines()` is modelled as a
  `List Str` of the individual lines.
* A transcript file is modelled as the list of its lines, each line being
  blank, unparseable JSON, or a parsed record carrying the fields the scanner
  reads (`TranscriptLine`).
-/

/-- Rust `str` modelled as a list of characters. -/
abbrev Str := List Char

/-- Rust `str::split(sep: char)`: pieces between occurrences of a single
separator character.  `splitOnChar '|' "a|b"` is `["a", "b"]`; an empty string
yields one empty piece, as in Rust. -/
def splitOnChar (sep : Char) : Str → List Str
  | [] => [[]]
  | c :: rest =>
    match splitOnChar sep rest with
    | [] => [[]]
    | g :: gs => if c = sep then [] :: g :: gs else (c :: g) :: gs

/-- Split a string at the first occurrence of a nonempty separator substring,
returning the part before and the part after it, or `none` when the separator
does not occur.  This models Rust `str::contains`/`str::split(&str)` at the
occurrences the source inspects. -/
def breakOnFirst (sep : Str) : Str → Option (Str × Str)
  | [] => none
  | c :: rest =>
    if List.isPrefixOf sep (c :: rest) then some ([], (c :: rest).drop sep.length)
    else
      match breakOnFirst sep rest with
      | some pr => some (c :: pr.1, pr.2)
      | none => none

/-- Rust `s.split(sep).nth(1)` for a nonempty `&str` separator: the text
between the first and (if any) second occurrence of `sep`; `none` when `sep`
does not occur (in which case the Rust iterator has a single piece). -/
def splitNth1 (sep : Str) (s : Str) : Option Str :=
  (breakOnFirst sep s).map fun pr =>
    match breakOnFirst sep pr.2 with
    | some q => q.1
    | none => pr.2

/-- Rust `str::contains(&str)` for a nonempty pattern. -/
def containsSeg (sep : Str) (s : Str) : Bool :=
  (breakOnFirst sep s).isSome

/-- Rust `str::trim`. -/
def trimChars (s : Str) : Str :=
  ((s.dropWhile Char.isWhitespace).reverse.dropWhile Char.isWhitespace).reverse

/-- Decimal digit run to a number; `none` when empty or a non-digit occurs. -/
def parseDigits (s : Str) : Option Nat :=
  if s.isEmpty then none
  else
    s.foldl
      (fun acc c => acc.bind fun n => if c.isDigit then some (n * 10 + (c.toNat - 48)) else none)
      (some 0)

/-- Rust `str::parse::<i32>()` (an optional sign then decimal digits; overflow
is not modelled, the parsed counts in this program are small). -/
def parseInt (s : Str) : Option Int :=
  match s with
  | '-' :: ds => (parseDigits ds).map fun n => -(n : Int)
  | '+' :: ds => (parseDigits ds).map fun n => (n : Int)
  | ds => (parseDigits ds).map fun n => (n : Int)

/-- Decimal rendering of a natural number, as Rust `format!` renders a `u32`
or a `usize`. -/
def natDigits (n : Nat) : Str := Nat.toDigits 10 n

/-- Decimal rendering of an integer, as Rust `format!` renders an `i32`/`i64`. -/
def intStr (i : Int) : Str :=
  match i with
  | .ofNat n => natDigits n
  | .negSucc m => '-' :: natDigits (m + 1)

/-! ## External Lookup Cache (src/src/lib.rs lines 18-29, 548-582) -/

/-- lib.rs `CachedValue`: a cached fact with its recording time
(epoch seconds). -/
structure CachedValue where
  value : Str
  timestamp : Nat
  deriving DecidableEq

/-- lib.rs `SessionCache`: the per-session bundle of cached slots. -/
structure SessionCache where
  pr_url : Option CachedValue
  pr_status : Option CachedValue
  git_info : Option CachedValue
  deriving DecidableEq

/-- Rust release-mode `u64` subtraction `a - b` (wrapping), for arguments
below `2 ^ 64`. -/
def u64_wrapping_sub (a b : Nat) : Nat := (a + 2 ^ 64 - b) % 2 ^ 64

/-- lib.rs `is_cache_valid` (lines 573-582): an entry is valid iff it exists
and `now - timestamp < ttl_seconds` in `u64` arithmetic.  The source reads
`now` from `SystemTime::now`; it is an explicit parameter here. -/
def is_cache_valid (cached_value : Option CachedValue) (ttl_seconds : Nat) (now : Nat) : Bool :=
  match cached_value with
  | some cached => u64_wrapping_sub now cached.timestamp < ttl_seconds
  | none => false

/-- The cache-consultation step shared by lib.rs `get_pr` (lines 429-435) and
`get_pr_status` (lines 768-774): on a TTL-valid entry whose stored value
starts with the queried discriminator key, return the text after the first
separator; otherwise report a miss. -/
def cacheHit (slot : Option CachedValue) (ttl : Nat) (now : Nat) (cache_key : Str) : Option Str :=
  if is_cache_valid slot ttl now then
    match slot with
    | some cached =>
      if List.isPrefixOf cache_key cached.value then
        some (((splitOnChar '|' cached.value).get? 1).getD [])
      else none
    | none => none
  else none

/-- lib.rs `get_pr` (lines 424-471).  The external `gh pr list` invocation is
modelled by the `fetched` parameter (its observable stdout on the miss path).
Returns the reported URL, the cache after the call, and whether the external
command was invoked. -/
def get_pr (branch : Str) (session : SessionCache) (now : Nat) (fetched : Str) :
    Str × SessionCache × Bool :=
  let cache_key := "pr_url_".toList ++ branch
  match cacheHit session.pr_url 60 now cache_key with
  | some url => (url, session, false)
  | none =>
    let url := fetched
    let session' := { session with pr_url := some ⟨cache_key ++ "|".toList ++ url, now⟩ }
    (url, session', true)

/-- C2: an entry recorded at epoch-second T with TTL S is valid precisely at
consultation times `now` (with `T ≤ now`, both clock readings being `u64`
values) satisfying `now - T < S`; in particular it is valid at `T + S - 1` and
invalid at `T + S`, and a missing entry is never valid. -/
theorem cache_validity_ttl (v : Str) (T S now : Nat)
    (hT : T ≤ now) (hnow : now < 2 ^ 64) (hS : S < 2 ^ 64) :
    (is_cache_valid (some ⟨v, T⟩) S now = true ↔ now - T < S)
    ∧ (1 ≤ S → T + S - 1 < 2 ^ 64 →
        is_cache_valid (some ⟨v, T⟩) S (T + S - 1) = true)
    ∧ (T + S < 2 ^ 64 → is_cache_valid (some ⟨v, T⟩) S (T + S) = false)
    ∧ is_cache_valid none S now = false := by
  have key : ∀ m : Nat, T ≤ m → m < 2 ^ 64 → u64_wrapping_sub m T = m - T := by
    intro m hTm hm
    have h1 : m + 2 ^ 64 - T = (m - T) + 2 ^ 64 := by omega
    have h2 : m - T < 2 ^ 64 := by omega
    simp only [u64_wrapping_sub, h1, Nat.add_mod_right]
    exact Nat.mod_eq_of_lt h2
  refine ⟨?_, ?_, ?_, rfl⟩
  · simp only [is_cache_valid, key now hT hnow, decide_eq_true_eq]
  · intro h1S hlt
    simp only [is_cache_valid, key (T + S - 1) (by omega) hlt, decide_eq_true_eq]
    omega
  · intro hlt
    simp only [is_cache_valid, key (T + S) (by omega) hlt, decide_eq_false_iff_not]
    omega

/-- Witness for C2 at concrete values: entry recorded at T = 100 with TTL 60,
consulted at 130 (valid since 30 < 60), at 159 = T + S - 1 (valid), and at
160 = T + S (invalid). -/
theorem cache_validity_ttl_witness :
    (is_cache_valid (some ⟨"x".toList, 100⟩) 60 130 = true ↔ 130 - 100 < 60)
    ∧ is_cache_valid (some ⟨"x".toList, 100⟩) 60 (100 + 60 - 1) = true
    ∧ is_cache_valid (some ⟨"x".toList, 100⟩) 60 (100 + 60) = false
    ∧ is_cache_valid none 60 130 = false := by
  obtain ⟨h1, h2, h3, h4⟩ :=
    cache_validity_ttl "x".toList 100 60 130 (by omega) (by norm_num) (by norm_num)
  exact ⟨h1, h2 (by omega) (by norm_num), h3 (by norm_num), h4⟩

/-! ## Review Status Aggregator (src/src/lib.rs lines 763-855) -/

/-- One element of the gh `pr checks` JSON array, after serde parsing: the
`bucket` and `name` fields as optional strings (absent or non-string fields
read as `none`). -/
structure CheckRec where
  bucket : Option Str
  name : Option Str
  deriving DecidableEq

/-- The names, in order of appearance, of the checks grouped into bucket `b`
(lib.rs lines 788-805): a missing bucket field defaults to "pending", a
missing name to the empty string.  This is the per-bucket vector the source
builds in its HashMap of groups (insertion order is preserved by the
HashMap's per-key Vec). -/
def bucketNames (b : Str) (checks : List CheckRec) : List Str :=
  (checks.filter fun c => c.bucket.getD "pending".toList == b).map fun c => c.name.getD []

/-- Rendering of the fail or pending bucket (lib.rs lines 808-833): up to the
first three names comma-joined, an ellipsis when more than three, a count
prefix only when more than one; nothing when the bucket is empty. -/
def renderNamedBucket (color sym : Str) (names : List Str) : Str :=
  if names.isEmpty then []
  else
    let shown := List.intercalate ",".toList (names.take 3)
    let more := if 3 < names.length then "...".toList else []
    let count := if 1 < names.length then natDigits names.length else []
    color ++ sym ++ count ++ ":".toList ++ shown ++ more ++ "\x1b[0m ".toList

/-- Rendering of the pass bucket (lib.rs lines 835-837): only its count. -/
def renderPassBucket (names : List Str) : Str :=
  if names.isEmpty then []
  else "\x1b[32m✓".toList ++ natDigits names.length ++ "\x1b[0m".toList

/-- The status string assembled from the parsed check array (lib.rs lines
786-841), before the final trim: fail bucket, then pending, then pass. -/
def renderChecks (checks : List CheckRec) : Str :=
  renderNamedBucket "\x1b[31m".toList "✗".toList (bucketNames "fail".toList checks) ++
    renderNamedBucket "\x1b[33m".toList "○".toList (bucketNames "pending".toList checks) ++
    renderPassBucket (bucketNames "pass".toList checks)

/-- lib.rs `get_pr_status` (lines 763-855).  The external `gh pr checks`
invocation is modelled by `checks`: `none` when the command fails or its
output does not parse as a JSON array (status then stays empty), otherwise
the parsed array.  Returns the reported status, the cache after the call, and
whether the external command was invoked. -/
def get_pr_status (branch : Str) (session : SessionCache) (now : Nat)
    (checks : Option (List CheckRec)) : Str × SessionCache × Bool :=
  let cache_key := "pr_status_".toList ++ branch
  match cacheHit session.pr_status 30 now cache_key with
  | some st => (st, session, false)
  | none =>
    let status := match checks with
      | some cs => renderChecks cs
      | none => []
    let session' :=
      { session with
        pr_status := some ⟨cache_key ++ "|".toList ++ trimChars status, now⟩ }
    (trimChars status, session', true)

/-- C1: the discriminator check in `get_pr`/`get_pr_status` is a string-prefix
test, not a branch comparison, so a TTL-fresh entry recorded for branch
"main" answers a query for the distinct branch "ma" ("pr_url_main|..."
starts with "pr_url_ma"): both functions return the value cached for the
wrong branch and skip the external refetch, contradicting the claim.  Each
conjunct evaluates the code at that failing input: the first call records the
entry for branch "main"; the query for branch "ma" at the same clock second
(well within both TTLs) returns the stale URL/status with the
refetch flag false, and the "FRESH" result the external command would have
produced is never reported. -/
theorem pr_cache_prefix_discriminator_bug :
    (get_pr "ma".toList
        (get_pr "main".toList ⟨none, none, none⟩ 1000 "https://g.test/o/r/pull/7".toList).2.1
        1000 "FRESH".toList
      = ("https://g.test/o/r/pull/7".toList,
          (get_pr "main".toList ⟨none, none, none⟩ 1000 "https://g.test/o/r/pull/7".toList).2.1,
          false))
    ∧ (get_pr_status "ma".toList
        (get_pr_status "main".toList ⟨none, none, none⟩ 1000
          (some [⟨some "pass".toList, some "build".toList⟩])).2.1
        1000 (some [])
      = ("\x1b[32m✓1\x1b[0m".toList,
          (get_pr_status "main".toList ⟨none, none, none⟩ 1000
            (some [⟨some "pass".toList, some "build".toList⟩])).2.1,
          false)) := by
  constructor
  · decide
  · decide

/-! ## Transcript Scanner (src/src/lib.rs lines 341-422, 585-646, 650-727) -/

/-- The token-usage block of a transcript record
(`message.usage.{input_tokens, output_tokens, cache_read_input_tokens,
cache_creation_input_tokens}`); each field is `none` when absent or not a
non-negative integer (serde `as_u64`). -/
structure UsageBlock where
  input_tokens : Option Nat
  output_tokens : Option Nat
  cache_read_input_tokens : Option Nat
  cache_creation_input_tokens : Option Nat
  deriving DecidableEq

/-- One parsed transcript record, restricted to the fields the scanner reads.
`timestamp` models the record's timestamp field through the result of lib.rs
`parse_timestamp` (lines 638-646): `none` when the field is absent,
`some none` when present but unparseable (a non-RFC-3339 string or a
non-integer value), `some (some ms)` when it parses to `ms` epoch
milliseconds.  `role` is `message.role` as a string, `typeField` the
top-level `type` field. -/
structure EventRecord where
  timestamp : Option (Option Int)
  role : Option String
  typeField : Option String
  usage : Option UsageBlock
  deriving DecidableEq

/-- One line of the transcript file: blank, non-blank but not parseable as a
JSON record, or a parsed record. -/
inductive TranscriptLine
  | blank
  | invalid
  | record (r : EventRecord)
  deriving DecidableEq

/-- Whether a line is blank (`line.trim().is_empty()`). -/
def isBlankLine : TranscriptLine → Bool
  | .blank => true
  | _ => false

/-- Whether a line parses as a JSON record. -/
def isRecordLine : TranscriptLine → Bool
  | .record _ => true
  | _ => false

/-- The first `parse_timestamp` outcome along the list, as in the scan loops
of lib.rs `get_session_duration` (lines 602-619): skip lines that fail to
parse or have no timestamp field; on the first timestamp field met, report
its parse result (`some none` models the `?` operator aborting the whole
function on a parse failure). -/
def firstTimestampResult : List TranscriptLine → Option (Option Int)
  | [] => none
  | .record r :: rest =>
    match r.timestamp with
    | some parsed => some parsed
    | none => firstTimestampResult rest
  | _ :: rest => firstTimestampResult rest

/-- Rust release-mode `i64` subtraction `a - b` (wrapping into
`[-2 ^ 63, 2 ^ 63)`), for `i64` arguments. -/
def i64_wrapping_sub (a b : Int) : Int :=
  (a - b + 2 ^ 63) % 2 ^ 64 - 2 ^ 63

lemma i64_wrapping_sub_eq {a b : Int} (h1 : -(2 ^ 63) ≤ a - b) (h2 : a - b < 2 ^ 63) :
    i64_wrapping_sub a b = a - b := by
  unfold i64_wrapping_sub
  omega

/-- lib.rs `get_session_duration` (lines 585-636): keep the non-blank lines,
give up when fewer than two remain, take the first and last timestamp
(scanning from the start and from the end), and render last − first
milliseconds with Rust `i64` subtraction (wrapping) and `i64` division and
remainder (truncation towards zero; the divisors are positive, so the
quotients cannot overflow).  The existence check and file read are modelled
by the line list. -/
def get_session_duration (lines : List TranscriptLine) : Option Str :=
  let ls := lines.filter fun l => !isBlankLine l
  if ls.length < 2 then none
  else
    match firstTimestampResult ls, firstTimestampResult ls.reverse with
    | some (some first), some (some last) =>
      let duration_ms := i64_wrapping_sub last first
      let hours := Int.tdiv duration_ms (1000 * 60 * 60)
      let minutes := Int.tdiv (Int.tmod duration_ms (1000 * 60 * 60)) (1000 * 60)
      if 0 < hours then some (intStr hours ++ "h".toList ++ intStr minutes ++ "m".toList)
      else if 0 < minutes then some (intStr minutes ++ "m".toList)
      else some "<1m".toList
    | _, _ => none

/-! ## Price Table and Cumulative Cost (src/src/lib.rs lines 10-69, 650-727) -/

/-- lib.rs `ModelPricing`: currency-per-token rates, cache rates optional. -/
structure ModelPricing where
  input_cost_per_token : ℚ
  output_cost_per_token : ℚ
  cache_creation_input_token_cost : Option ℚ
  cache_read_input_token_cost : Option ℚ

/-- lib.rs `MODEL_PRICING` (lines 31-69): the static pricing table, looked up
by exact model identifier. -/
def MODEL_PRICING (model_id : String) : Option ModelPricing :=
  if model_id = "claude-opus-4-1-20250805" then
    some ⟨15 / 1000000, 75 / 1000000, some (18.75 / 1000000), some (1.875 / 1000000)⟩
  else if model_id = "claude-sonnet-4-20250514" then
    some ⟨3 / 1000000, 15 / 1000000, some (3.75 / 1000000), some (0.30 / 1000000)⟩
  else if model_id = "claude-sonnet-4-1-20250905" then
    some ⟨3 / 1000000, 15 / 1000000, some (3.75 / 1000000), some (0.30 / 1000000)⟩
  else if model_id = "claude-haiku-3-5-20241022" then
    some ⟨1 / 1000000, 5 / 1000000, some (1.25 / 1000000), some (0.10 / 1000000)⟩
  else none

/-- The role test of lib.rs `calculate_session_cost` (lines 672-682): a
record counts as assistant when `message.role` is the string "assistant", or,
only when `message.role` is absent, when the top-level `type` is
"assistant". -/
def isAssistantRecord (r : EventRecord) : Bool :=
  match r.role with
  | some role => role == "assistant"
  | none => r.typeField == some "assistant"

/-- Cost of one qualifying record (lib.rs lines 686-716): token counts
default to zero, cache terms are charged only when the model defines the
corresponding rate. -/
def messageCost (pricing : ModelPricing) (usage : UsageBlock) : ℚ :=
  let input_tokens : ℚ := usage.input_tokens.getD 0
  let output_tokens : ℚ := usage.output_tokens.getD 0
  let cache_creation : ℚ := usage.cache_creation_input_tokens.getD 0
  let cache_read : ℚ := usage.cache_read_input_tokens.getD 0
  let base := input_tokens * pricing.input_cost_per_token
    + output_tokens * pricing.output_cost_per_token
  let withCc :=
    match pricing.cache_creation_input_token_cost with
    | some c => base + cache_creation * c
    | none => base
  match pricing.cache_read_input_token_cost with
  | some c => withCc + cache_read * c
  | none => withCc

/-- Contribution of one transcript line to the total (lib.rs lines 663-719):
blank and unparseable lines are skipped, non-assistant records and assistant
records without a usage block contribute nothing. -/
def lineCost (pricing : ModelPricing) : TranscriptLine → ℚ
  | .record r =>
    if isAssistantRecord r then
      match r.usage with
      | some u => messageCost pricing u
      | none => 0
    else 0
  | _ => 0

/-- lib.rs `calculate_session_cost` (lines 650-727): absent model id or
unknown model yields no result; otherwise the per-line costs are summed over
the whole transcript and a total of exactly zero is reported as absent. -/
def calculate_session_cost (lines : List TranscriptLine) (model_id : Option String) : Option ℚ :=
  match model_id with
  | none => none
  | some mid =>
    match MODEL_PRICING mid with
    | none => none
    | some pricing =>
      let total_cost := (lines.map (lineCost pricing)).sum
      if 0 < total_cost then some total_cost else none

/-! ## Context-usage percentage (src/src/lib.rs lines 393-422) -/

/-- The mathematical sum of the four token fields of a usage record (the
"total" the claims speak of). -/
def tokensTotal (usage : UsageBlock) : Nat :=
  usage.input_tokens.getD 0 + usage.output_tokens.getD 0
    + usage.cache_read_input_tokens.getD 0 + usage.cache_creation_input_tokens.getD 0

/-- Total tokens of the selected usage record (lib.rs line 411): the chain of
release-mode `u64` additions, i.e. the sum of the four fields modulo
`2 ^ 64` (modular addition is associative, so the chained wraps equal one
final reduction). -/
def usedTokens (usage : UsageBlock) : Nat :=
  tokensTotal usage % 2 ^ 64

/-- The computed percentage (lib.rs line 412): `used * 100 / 160000`, clamped
at 100 (`f32` arithmetic modelled exactly). -/
def contextPct (usage : UsageBlock) : ℚ :=
  min ((usedTokens usage : ℚ) * 100 / 160000) 100

/-- Rust `f32::round` (round half away from zero) on the non-negative values
this program rounds. -/
def roundHalfUp (q : ℚ) : Int := ⌊q + 1 / 2⌋

/-- Rust `format!` with one-decimal precision on a non-negative value:
nearest tenth, rendered with exactly one digit after the point. -/
def formatOneDecimal (q : ℚ) : Str :=
  let t := (roundHalfUp (q * 10)).toNat
  natDigits (t / 10) ++ ".".toList ++ natDigits (t % 10)

/-- The formatting step of lib.rs `get_context_pct` (lines 411-418): one
decimal place at or above 90, else the nearest whole percent (`as u32`). -/
def get_context_pct (usage : UsageBlock) : Str :=
  let pct := contextPct usage
  if 90 ≤ pct then formatOneDecimal pct
  else natDigits (roundHalfUp pct).toNat

/-! ## Repository Inspector, standalone-binary variant (src/main.rs lines 453-517) -/

namespace MainRs

/-- Classification outcome for one two-character porcelain status code. -/
inductive FileStatus
  | added
  | modified
  | deleted
  | untracked
  | other
  deriving DecidableEq

/-- The match on `&line[0..2]` of main.rs `get_git_status` (lines 468-475),
with the source's arm order: added/staged, modified, deleted, untracked. -/
def classifyStatusCode (c0 c1 : Char) : FileStatus :=
  if c0 = 'A' ∨ (c0 = 'M' ∧ c1 = ' ') then .added
  else if c1 = 'M' ∨ (c0 = ' ' ∧ c1 = 'M') then .modified
  else if c0 = 'D' ∨ (c0 = ' ' ∧ c1 = 'D') then .deleted
  else if c0 = '?' ∧ c1 = '?' then .untracked
  else .other

/-- Classification of one status line: lines shorter than two characters are
skipped (`continue`). -/
def statusKindOf (line : Str) : FileStatus :=
  match line with
  | c0 :: c1 :: _ => classifyStatusCode c0 c1
  | _ => .other

/-- The counting loop of main.rs `get_git_status` (lines 459-476). -/
def countsOf (statusLines : List Str) : Nat × Nat × Nat × Nat :=
  statusLines.foldl
    (fun acc line =>
      match statusKindOf line with
      | .added => (acc.1 + 1, acc.2.1, acc.2.2.1, acc.2.2.2)
      | .modified => (acc.1, acc.2.1 + 1, acc.2.2.1, acc.2.2.2)
      | .deleted => (acc.1, acc.2.1, acc.2.2.1 + 1, acc.2.2.2)
      | .untracked => (acc.1, acc.2.1, acc.2.2.1, acc.2.2.2 + 1)
      | .other => acc)
    (0, 0, 0, 0)

/-- Parsed added line count of one `diff --numstat` line (main.rs lines
499-502): tab-separated fields, first field parsed as an integer with
failures counting zero; lines with fewer than two fields are skipped. -/
def diffAdd (line : Str) : Int :=
  let parts := splitOnChar '\t' line
  if 2 ≤ parts.length then (parseInt ((parts.get? 0).getD [])).getD 0 else 0

/-- Parsed deleted line count of one `diff --numstat` line. -/
def diffDel (line : Str) : Int :=
  let parts := splitOnChar '\t' line
  if 2 ≤ parts.length then (parseInt ((parts.get? 1).getD [])).getD 0 else 0

/-- main.rs `get_git_status` (lines 453-517): counts of classified status
codes rendered as `+N ~N -N ?N`, then the net line delta of the numstat
query as `Δ+N`/`Δ-N` when non-zero.  `statusLines`/`diffLines` are the
`.lines()` of the two git invocations (an empty status output short-circuits
to the empty fragment before the diff query is consulted). -/
def get_git_status (statusLines : List Str) (diffLines : List Str) : Str :=
  if statusLines.isEmpty then []
  else
    let counts := countsOf statusLines
    let added := counts.1
    let modified := counts.2.1
    let deleted := counts.2.2.1
    let untracked := counts.2.2.2
    let result :=
      (if 0 < added then " +".toList ++ natDigits added else []) ++
        (if 0 < modified then " ~".toList ++ natDigits modified else []) ++
        (if 0 < deleted then " -".toList ++ natDigits deleted else []) ++
        (if 0 < untracked then " ?".toList ++ natDigits untracked else [])
    if diffLines.isEmpty then result
    else
      let sums := diffLines.foldl
        (fun acc line =>
          let parts := splitOnChar '\t' line
          if 2 ≤ parts.length then
            (acc.1 + (parseInt ((parts.get? 0).getD [])).getD 0,
              acc.2 + (parseInt ((parts.get? 1).getD [])).getD 0)
          else acc)
        ((0 : Int), (0 : Int))
      let delta := sums.1 - sums.2
      if delta ≠ 0 then
        if 0 < delta then result ++ " Δ+".toList ++ intStr delta
        else result ++ " Δ".toList ++ intStr delta
      else result

end MainRs

/-! ## Repository Inspector, library variant (src/src/lib.rs lines 473-517) -/

namespace LibRs

/-- The ahead fragment parsed from the `## ...` header line of
`git status --porcelain --branch` (lib.rs lines 484-492): the text after
"[ahead " up to the first `]` or `,`, parsed as an integer and rendered as
` ⇡N` when positive. -/
def aheadPart (first_line : Str) : Str :=
  match splitNth1 "[ahead ".toList first_line with
  | some ahead_str =>
    match parseInt (ahead_str.takeWhile fun c => !(c == ']' || c == ',')) with
    | some n => if 0 < n then " ⇡".toList ++ intStr n else []
    | none => []
  | none => []

/-- The behind fragment parsed from the header line (lib.rs lines 493-501):
the text after "behind " up to the first `]`, rendered as ` ⇣N` when
positive. -/
def behindPart (first_line : Str) : Str :=
  match splitNth1 "behind ".toList first_line with
  | some behind_str =>
    match parseInt (behind_str.takeWhile fun c => !(c == ']')) with
    | some n => if 0 < n then " ⇣".toList ++ intStr n else []
    | none => []
  | none => []

/-- lib.rs `get_git_status` (lines 473-517): ahead/behind arrows parsed from
the branch header when the first line starts with "##", a ` *` dirty marker
when any entry lines follow the header, and a ` ≡` marker when the separate
stash query reports anything. -/
def get_git_status (statusLines : List Str) (stash_output : Str) : Str :=
  let branchPart :=
    match statusLines with
    | [] => []
    | first_line :: _ =>
      if List.isPrefixOf "##".toList first_line then
        aheadPart first_line ++ behindPart first_line
      else []
  let dirtyPart := if 1 < statusLines.length then " *".toList else []
  let stashPart := if stash_output.isEmpty then [] else " ≡".toList
  branchPart ++ dirtyPart ++ stashPart

end LibRs

/-! ## Session duration: claims C7 and C10 -/

lemma tdiv_nonpos_of_nonpos {a b : Int} (ha : a ≤ 0) (hb : 0 ≤ b) : Int.tdiv a b ≤ 0 := by
  have h := Int.tdiv_nonneg (show (0 : Int) ≤ -a by omega) hb
  rw [Int.neg_tdiv] at h
  omega

lemma tmod_nonpos_of_nonpos {a : Int} (b : Int) (ha : a ≤ 0) : Int.tmod a b ≤ 0 := by
  have h : Int.tmod a b = -(Int.tmod (-a) b) := by
    rw [Int.tmod_def, Int.tmod_def, Int.neg_tdiv]
    ring
  have h2 := Int.tmod_nonneg b (show (0 : Int) ≤ -a by omega)
  omega

/-- C7 (amended): for every transcript whose non-blank lines number fewer
than two, `get_session_duration` is absent.  (The source counts non-blank
lines, whether or not they parse; see the counterexample for the original
"parseable records" phrasing.) -/
theorem session_duration_two_nonblank_lines (lines : List TranscriptLine)
    (h : (lines.filter fun l => !isBlankLine l).length < 2) :
    get_session_duration lines = none := by
  simp only [get_session_duration]
  rw [if_pos h]

/-- Witness for the amended C7: a transcript of one blank and one record line
has a single non-blank line, and the duration is absent. -/
theorem session_duration_two_nonblank_lines_witness :
    get_session_duration
      [TranscriptLine.blank, TranscriptLine.record ⟨some (some 5), none, none, none⟩] = none :=
  session_duration_two_nonblank_lines
    [TranscriptLine.blank, TranscriptLine.record ⟨some (some 5), none, none, none⟩] (by decide)

/-- C7 counterexample: a transcript holding one unparseable non-blank line
and one parseable record has fewer than two non-blank parseable records
(the count is 1), yet `get_session_duration` returns "<1m" rather than the
absent result the claim requires — the source's guard counts non-blank
lines, not parseable records, and both timestamp scans then land on the same
single record. -/
theorem session_duration_parseable_counterexample :
    List.countP isRecordLine
        [TranscriptLine.invalid, TranscriptLine.record ⟨some (some 5), none, none, none⟩] = 1
    ∧ get_session_duration
        [TranscriptLine.invalid, TranscriptLine.record ⟨some (some 5), none, none, none⟩]
      = some "<1m".toList := by
  exact ⟨by decide, by decide⟩

/-- C10: on a transcript with at least two non-blank lines whose last
timestamp is strictly earlier than its first (negative computed duration,
with the difference inside the `i64` range, so the `i64` subtraction does
not wrap), `get_session_duration` returns the present value "<1m": with
Rust `i64` truncating division both the hour and the minute quotient of the
negative millisecond difference are non-positive, so the rendering falls
through to the final branch. -/
theorem session_duration_negative_renders_less_than_one_minute
    (lines : List TranscriptLine) (f l : Int)
    (hlen : ¬ (lines.filter fun x => !isBlankLine x).length < 2)
    (hf : firstTimestampResult (lines.filter fun x => !isBlankLine x) = some (some f))
    (hl : firstTimestampResult (lines.filter fun x => !isBlankLine x).reverse = some (some l))
    (hneg : l < f) (hrange : -(2 ^ 63) ≤ l - f) :
    get_session_duration lines = some "<1m".toList := by
  simp only [get_session_duration, hf, hl]
  rw [if_neg hlen]
  rw [i64_wrapping_sub_eq hrange (by omega)]
  have hdur : l - f ≤ 0 := by omega
  have hh : Int.tdiv (l - f) (1000 * 60 * 60) ≤ 0 :=
    tdiv_nonpos_of_nonpos hdur (by norm_num)
  have hm : Int.tdiv (Int.tmod (l - f) (1000 * 60 * 60)) (1000 * 60) ≤ 0 :=
    tdiv_nonpos_of_nonpos (tmod_nonpos_of_nonpos _ hdur) (by norm_num)
  rw [if_neg (by omega), if_neg (by omega)]

/-- Witness for C10: two records with timestamps 10 ms and 3 ms; the last is
earlier than the first, the difference is far inside the `i64` range, and
the rendered duration is "<1m". -/
theorem session_duration_negative_witness :
    get_session_duration
      [TranscriptLine.record ⟨some (some 10), none, none, none⟩,
        TranscriptLine.record ⟨some (some 3), none, none, none⟩] = some "<1m".toList :=
  session_duration_negative_renders_less_than_one_minute
    [TranscriptLine.record ⟨some (some 10), none, none, none⟩,
      TranscriptLine.record ⟨some (some 3), none, none, none⟩]
    10 3 (by decide) (by decide) (by decide) (by decide) (by norm_num)

/-! ## Cumulative cost: claims C3 and C4 -/

lemma pricing_rates_pos {mid : String} {p : ModelPricing} (h : MODEL_PRICING mid = some p) :
    0 < p.input_cost_per_token ∧ 0 < p.output_cost_per_token
      ∧ (∃ cc, p.cache_creation_input_token_cost = some cc ∧ 0 < cc)
      ∧ (∃ cr, p.cache_read_input_token_cost = some cr ∧ 0 < cr) := by
  unfold MODEL_PRICING at h
  split_ifs at h <;> cases h <;>
    exact ⟨by norm_num, by norm_num, ⟨_, rfl, by norm_num⟩, ⟨_, rfl, by norm_num⟩⟩

lemma messageCost_nonneg {mid : String} {p : ModelPricing} (h : MODEL_PRICING mid = some p)
    (u : UsageBlock) : 0 ≤ messageCost p u := by
  obtain ⟨hi, ho, ⟨cc, hcc, hccpos⟩, ⟨cr, hcr, hcrpos⟩⟩ := pricing_rates_pos h
  simp only [messageCost, hcc, hcr]
  have h1 : (0 : ℚ) ≤ (u.input_tokens.getD 0 : ℚ) * p.input_cost_per_token :=
    mul_nonneg (Nat.cast_nonneg _) hi.le
  have h2 : (0 : ℚ) ≤ (u.output_tokens.getD 0 : ℚ) * p.output_cost_per_token :=
    mul_nonneg (Nat.cast_nonneg _) ho.le
  have h3 : (0 : ℚ) ≤ (u.cache_creation_input_tokens.getD 0 : ℚ) * cc :=
    mul_nonneg (Nat.cast_nonneg _) hccpos.le
  have h4 : (0 : ℚ) ≤ (u.cache_read_input_tokens.getD 0 : ℚ) * cr :=
    mul_nonneg (Nat.cast_nonneg _) hcrpos.le
  linarith

lemma lineCost_nonneg {mid : String} {p : ModelPricing} (h : MODEL_PRICING mid = some p)
    (l : TranscriptLine) : 0 ≤ lineCost p l := by
  cases l with
  | blank => simp [lineCost]
  | invalid => simp [lineCost]
  | record r =>
    simp only [lineCost]
    split
    · cases hu : r.usage with
      | none => simp
      | some u => simpa using messageCost_nonneg h u
    · simp

lemma messageCost_zero {p : ModelPricing} {u : UsageBlock}
    (h1 : u.input_tokens.getD 0 = 0) (h2 : u.output_tokens.getD 0 = 0)
    (h3 : u.cache_creation_input_tokens.getD 0 = 0) (h4 : u.cache_read_input_tokens.getD 0 = 0) :
    messageCost p u = 0 := by
  simp only [messageCost, h1, h2, h3, h4, Nat.cast_zero, zero_mul, add_zero, zero_add]
  cases p.cache_creation_input_token_cost <;> cases p.cache_read_input_token_cost <;> simp

/-- C3: calculate_session_cost is absent for an absent or unknown model
identifier whatever the transcript holds; it is absent for a known model
whose qualifying assistant records all carry zero charged token counts; and
it is present and strictly positive for a known model as soon as one
qualifying record carries a positive charged token field. -/
theorem session_cost_absence_and_positivity :
    (∀ lines : List TranscriptLine, calculate_session_cost lines none = none)
    ∧ (∀ (lines : List TranscriptLine) (mid : String), MODEL_PRICING mid = none →
        calculate_session_cost lines (some mid) = none)
    ∧ (∀ (lines : List TranscriptLine) (mid : String) (p : ModelPricing),
        MODEL_PRICING mid = some p →
        (∀ rec u, TranscriptLine.record rec ∈ lines → isAssistantRecord rec = true →
          rec.usage = some u →
          u.input_tokens.getD 0 = 0 ∧ u.output_tokens.getD 0 = 0
            ∧ u.cache_creation_input_tokens.getD 0 = 0 ∧ u.cache_read_input_tokens.getD 0 = 0) →
        calculate_session_cost lines (some mid) = none)
    ∧ (∀ (lines : List TranscriptLine) (mid : String) (p : ModelPricing)
        (rec : EventRecord) (u : UsageBlock),
        MODEL_PRICING mid = some p →
        TranscriptLine.record rec ∈ lines →
        isAssistantRecord rec = true →
        rec.usage = some u →
        (0 < u.input_tokens.getD 0 ∨ 0 < u.output_tokens.getD 0
          ∨ 0 < u.cache_creation_input_tokens.getD 0 ∨ 0 < u.cache_read_input_tokens.getD 0) →
        ∃ c, calculate_session_cost lines (some mid) = some c ∧ 0 < c) := by
  refine ⟨fun _ => rfl, ?_, ?_, ?_⟩
  · intro lines mid h
    simp [calculate_session_cost, h]
  · intro lines mid p hp hzero
    have hall : ∀ l ∈ lines, lineCost p l = 0 := by
      intro l hl
      cases l with
      | blank => simp [lineCost]
      | invalid => simp [lineCost]
      | record r =>
        simp only [lineCost]
        split
        · cases hu : r.usage with
          | none => simp
          | some u =>
            obtain ⟨h1, h2, h3, h4⟩ := hzero r u hl (by assumption) hu
            simpa using messageCost_zero h1 h2 h3 h4
        · simp
    have hsum : (lines.map (lineCost p)).sum = 0 :=
      List.sum_eq_zero (by simpa using hall)
    simp [calculate_session_cost, hp, hsum]
  · intro lines mid p rec u hp hmem hassist husage hpos
    obtain ⟨hi, ho, ⟨cc, hcc, hccpos⟩, ⟨cr, hcr, hcrpos⟩⟩ := pricing_rates_pos hp
    have hrecpos : 0 < lineCost p (TranscriptLine.record rec) := by
      simp only [lineCost, hassist, if_true, husage]
      simp only [messageCost, hcc, hcr]
      have h1 : (0 : ℚ) ≤ (u.input_tokens.getD 0 : ℚ) * p.input_cost_per_token :=
        mul_nonneg (Nat.cast_nonneg _) hi.le
      have h2 : (0 : ℚ) ≤ (u.output_tokens.getD 0 : ℚ) * p.output_cost_per_token :=
        mul_nonneg (Nat.cast_nonneg _) ho.le
      have h3 : (0 : ℚ) ≤ (u.cache_creation_input_tokens.getD 0 : ℚ) * cc :=
        mul_nonneg (Nat.cast_nonneg _) hccpos.le
      have h4 : (0 : ℚ) ≤ (u.cache_read_input_tokens.getD 0 : ℚ) * cr :=
        mul_nonneg (Nat.cast_nonneg _) hcrpos.le
      rcases hpos with hf | hf | hf | hf
      · have := mul_pos (show (0 : ℚ) < u.input_tokens.getD 0 by exact_mod_cast hf) hi
        linarith
      · have := mul_pos (show (0 : ℚ) < u.output_tokens.getD 0 by exact_mod_cast hf) ho
        linarith
      · have := mul_pos
          (show (0 : ℚ) < u.cache_creation_input_tokens.getD 0 by exact_mod_cast hf) hccpos
        linarith
      · have := mul_pos
          (show (0 : ℚ) < u.cache_read_input_tokens.getD 0 by exact_mod_cast hf) hcrpos
        linarith
    have hsum : 0 < (lines.map (lineCost p)).sum := by
      have hle : lineCost p (TranscriptLine.record rec) ≤ (lines.map (lineCost p)).sum :=
        List.single_le_sum
          (by
            intro x hx
            obtain ⟨l, hl, rfl⟩ := List.mem_map.1 hx
            exact lineCost_nonneg hp l)
          _ (List.mem_map_of_mem _ hmem)
      linarith
    refine ⟨(lines.map (lineCost p)).sum, ?_, hsum⟩
    simp [calculate_session_cost, hp, hsum]

/-- Witness for C3 at concrete inputs: the model id "nope" is unknown, so the
cost is absent for a transcript with spend; the known Sonnet model with one
all-zero assistant record yields an absent cost; and with one assistant
record holding 1000 input tokens it yields a present, strictly positive
cost. -/
theorem session_cost_absence_and_positivity_witness :
    calculate_session_cost
        [TranscriptLine.record ⟨none, some "assistant", none,
          some ⟨some 1000, some 500, none, none⟩⟩] (some "nope") = none
    ∧ calculate_session_cost
        [TranscriptLine.record ⟨none, some "assistant", none,
          some ⟨some 0, none, some 0, none⟩⟩] (some "claude-sonnet-4-20250514") = none
    ∧ ∃ c, calculate_session_cost
        [TranscriptLine.record ⟨none, some "assistant", none,
          some ⟨some 1000, some 500, none, none⟩⟩] (some "claude-sonnet-4-20250514")
          = some c ∧ 0 < c := by
  obtain ⟨w1, w2, w3, w4⟩ := session_cost_absence_and_positivity
  refine ⟨w2 _ "nope" (by simp [ MODEL_PRICING]), ?_, ?_⟩
  · exact w3 _ "claude-sonnet-4-20250514"
      ⟨3 / 1000000, 15 / 1000000, some (3.75 / 1000000), some (0.30 / 1000000)⟩
      (by simp [ MODEL_PRICING])
      (by
        intro rec u hmem hassist husage
        simp only [List.mem_singleton] at hmem
        cases hmem
        cases husage
        exact ⟨rfl, rfl, rfl, rfl⟩)
  · exact w4 _ "claude-sonnet-4-20250514"
      ⟨3 / 1000000, 15 / 1000000, some (3.75 / 1000000), some (0.30 / 1000000)⟩
      ⟨none, some "assistant", none, some ⟨some 1000, some 500, none, none⟩⟩
      ⟨some 1000, some 500, none, none⟩ (by simp [ MODEL_PRICING])
      (List.mem_singleton_self _) rfl rfl (Or.inl (by norm_num))

/-- C4: the cost computed over the concatenation of two line lists equals the
sum of the costs computed over each separately (absent results counting as
zero spend), and the computed cost is invariant under permutation of the
transcript lines, so the order in which qualifying lines are summed is
immaterial. -/
theorem session_cost_additive_order_independent :
    (∀ (l1 l2 : List TranscriptLine) (mid : Option String),
        (calculate_session_cost (l1 ++ l2) mid).getD 0
          = (calculate_session_cost l1 mid).getD 0 + (calculate_session_cost l2 mid).getD 0)
    ∧ (∀ (l1 l2 : List TranscriptLine) (mid : Option String), l1.Perm l2 →
        calculate_session_cost l1 mid = calculate_session_cost l2 mid) := by
  constructor
  · intro l1 l2 mid
    cases mid with
    | none => simp [calculate_session_cost]
    | some m =>
      cases hp : MODEL_PRICING m with
      | none => simp [calculate_session_cost, hp]
      | some p =>
        have ht1 : 0 ≤ (l1.map (lineCost p)).sum :=
          List.sum_nonneg (by
            intro x hx
            obtain ⟨l, _, rfl⟩ := List.mem_map.1 hx
            exact lineCost_nonneg hp l)
        have ht2 : 0 ≤ (l2.map (lineCost p)).sum :=
          List.sum_nonneg (by
            intro x hx
            obtain ⟨l, _, rfl⟩ := List.mem_map.1 hx
            exact lineCost_nonneg hp l)
        simp only [calculate_session_cost, hp, List.map_append, List.sum_append]
        split_ifs <;> simp only [Option.getD_some, Option.getD_none] <;> linarith
  · intro l1 l2 mid hperm
    cases mid with
    | none => rfl
    | some m =>
      cases hp : MODEL_PRICING m with
      | none => simp [calculate_session_cost, hp]
      | some p =>
        have hsum : (l1.map (lineCost p)).sum = (l2.map (lineCost p)).sum :=
          (hperm.map (lineCost p)).sum_eq
        simp only [calculate_session_cost, hp, hsum]

/-- Witness for C4 at concrete inputs: one user record and one assistant
record with 1000 input tokens; splitting the two-line transcript and summing
matches the whole, and swapping the two lines leaves the cost unchanged. -/
theorem session_cost_additive_order_independent_witness :
    ((calculate_session_cost
        [TranscriptLine.record ⟨none, some "user", none, none⟩,
          TranscriptLine.record ⟨none, some "assistant", none,
            some ⟨some 1000, some 500, none, none⟩⟩] (some "claude-sonnet-4-20250514")).getD 0
      = (calculate_session_cost [TranscriptLine.record ⟨none, some "user", none, none⟩]
          (some "claude-sonnet-4-20250514")).getD 0
        + (calculate_session_cost
            [TranscriptLine.record ⟨none, some "assistant", none,
              some ⟨some 1000, some 500, none, none⟩⟩] (some "claude-sonnet-4-20250514")).getD 0)
    ∧ calculate_session_cost
        [TranscriptLine.record ⟨none, some "user", none, none⟩,
          TranscriptLine.record ⟨none, some "assistant", none,
            some ⟨some 1000, some 500, none, none⟩⟩] (some "claude-sonnet-4-20250514")
      = calculate_session_cost
        [TranscriptLine.record ⟨none, some "assistant", none,
            some ⟨some 1000, some 500, none, none⟩⟩,
          TranscriptLine.record ⟨none, some "user", none, none⟩]
        (some "claude-sonnet-4-20250514") :=
  ⟨session_cost_additive_order_independent.1
      [TranscriptLine.record ⟨none, some "user", none, none⟩]
      [TranscriptLine.record ⟨none, some "assistant", none,
        some ⟨some 1000, some 500, none, none⟩⟩] (some "claude-sonnet-4-20250514"),
    session_cost_additive_order_independent.2 _ _ (some "claude-sonnet-4-20250514")
      (List.Perm.swap _ _ _)⟩

/-! ## Context percentage: claims C5 and C6 -/

/-- C6: for every record whose four token fields sum inside the `u64` range
(so the source's `u64` additions do not wrap), the computed context
percentage is exactly min(100, total tokens × 100 / 160000) where the total
sums the input, output, cache-read and cache-creation counts, and the
percentage is monotone non-decreasing in that total; the clamp at 100 holds
for every record. -/
theorem context_pct_formula_monotone_clamped :
    (∀ u : UsageBlock, tokensTotal u < 2 ^ 64 →
        contextPct u = min 100 ((tokensTotal u : ℚ) * 100 / 160000))
    ∧ (∀ u v : UsageBlock, tokensTotal u ≤ tokensTotal v → tokensTotal v < 2 ^ 64 →
        contextPct u ≤ contextPct v)
    ∧ (∀ u : UsageBlock, contextPct u ≤ 100) := by
  have hused : ∀ u : UsageBlock, tokensTotal u < 2 ^ 64 → usedTokens u = tokensTotal u :=
    fun u hu => Nat.mod_eq_of_lt hu
  refine ⟨?_, ?_, fun u => min_le_right _ _⟩
  · intro u hu
    unfold contextPct
    rw [hused u hu, min_comm]
  · intro u v huv hv
    have hu : tokensTotal u < 2 ^ 64 := lt_of_le_of_lt huv hv
    unfold contextPct
    rw [hused u hu, hused v hv]
    have hq : (tokensTotal u : ℚ) ≤ (tokensTotal v : ℚ) := by exact_mod_cast huv
    have hdiv : (tokensTotal u : ℚ) * 100 / 160000 ≤ (tokensTotal v : ℚ) * 100 / 160000 := by
      gcongr
    exact min_le_min hdiv le_rfl

/-- Witness for C6 at concrete usage blocks: 80000 total tokens (inside the
u64 range, as is 160000) yields a percentage equal to the claimed formula
and at most that of 160000 total tokens. -/
theorem context_pct_formula_monotone_clamped_witness :
    contextPct ⟨some 80000, none, none, none⟩
      = min 100 ((tokensTotal ⟨some 80000, none, none, none⟩ : ℚ) * 100 / 160000)
    ∧ contextPct ⟨some 80000, none, none, none⟩ ≤ contextPct ⟨some 160000, none, none, none⟩ :=
  ⟨context_pct_formula_monotone_clamped.1 ⟨some 80000, none, none, none⟩ (by decide),
    context_pct_formula_monotone_clamped.2.1
      ⟨some 80000, none, none, none⟩ ⟨some 160000, none, none, none⟩ (by decide) (by decide)⟩

/-- C5: at or above a computed percentage of 90 the output carries exactly
one digit after the decimal point; below 90 it is the nearest whole percent
(within one half); a usage of exactly 90.0% (144000 of 160000 tokens)
renders as "90.0" and a usage of 89.9% (143840 tokens) as the rounded
integer "90". -/
theorem context_pct_formatting (u : UsageBlock) :
    (90 ≤ contextPct u →
      ∃ a b : Nat, b < 10 ∧ get_context_pct u = natDigits a ++ ".".toList ++ natDigits b)
    ∧ (contextPct u < 90 →
      ∃ m : Nat, get_context_pct u = natDigits m ∧ |contextPct u - (m : ℚ)| ≤ 1 / 2)
    ∧ get_context_pct ⟨some 144000, some 0, some 0, some 0⟩ = "90.0".toList
    ∧ get_context_pct ⟨some 143840, none, none, none⟩ = "90".toList := by
  have hpct0 : ∀ w : UsageBlock, (0 : ℚ) ≤ contextPct w := by
    intro w
    apply le_min
    · positivity
    · norm_num
  refine ⟨?_, ?_, ?_, ?_⟩
  · intro h
    refine ⟨(roundHalfUp (contextPct u * 10)).toNat / 10,
      (roundHalfUp (contextPct u * 10)).toNat % 10, Nat.mod_lt _ (by norm_num), ?_⟩
    simp only [get_context_pct, formatOneDecimal]
    rw [if_pos h]
  · intro h
    have hnn : (0 : ℤ) ≤ roundHalfUp (contextPct u) := by
      simp only [roundHalfUp]
      have := hpct0 u
      positivity
    refine ⟨(roundHalfUp (contextPct u)).toNat, ?_, ?_⟩
    · simp only [get_context_pct]
      rw [if_neg (not_le.2 h)]
    · have hcast : (((roundHalfUp (contextPct u)).toNat : ℚ)) = ((roundHalfUp (contextPct u) : ℤ) : ℚ) := by
        exact_mod_cast congrArg (fun z : ℤ => (z : ℚ)) (Int.toNat_of_nonneg hnn)
      rw [hcast]
      simp only [roundHalfUp]
      have hle : ((⌊contextPct u + 1 / 2⌋ : ℤ) : ℚ) ≤ contextPct u + 1 / 2 := Int.floor_le _
      have hgt : contextPct u + 1 / 2 < (⌊contextPct u + 1 / 2⌋ : ℤ) + 1 := Int.lt_floor_add_one _
      rw [abs_le]
      constructor <;> linarith
  · have htot : usedTokens ⟨some 144000, some 0, some 0, some 0⟩ = 144000 := by decide
    have hpct : contextPct ⟨some 144000, some 0, some 0, some 0⟩ = 90 := by
      unfold contextPct
      rw [htot]
      norm_num
    simp only [get_context_pct, hpct]
    rw [if_pos (by norm_num)]
    have ht : roundHalfUp ((90 : ℚ) * 10) = 900 := by
      simp only [roundHalfUp]
      norm_num
    simp only [formatOneDecimal, ht]
    decide
  · have htot : usedTokens ⟨some 143840, none, none, none⟩ = 143840 := by decide
    have hpct : contextPct ⟨some 143840, none, none, none⟩ = 899 / 10 := by
      unfold contextPct
      rw [htot]
      norm_num
    simp only [get_context_pct, hpct]
    rw [if_neg (by norm_num)]
    have ht : roundHalfUp ((899 : ℚ) / 10) = 90 := by
      simp only [roundHalfUp]
      norm_num
    rw [ht]
    decide

/-- Witness for C5: at 160000 tokens the percentage is 100 (at least 90) and
the output shows one decimal digit; at 80000 tokens the percentage is 50
(below 90) and the output is a nearest whole percent. -/
theorem context_pct_formatting_witness :
    (∃ a b : Nat, b < 10
      ∧ get_context_pct ⟨some 160000, none, none, none⟩ = natDigits a ++ ".".toList ++ natDigits b)
    ∧ (∃ m : Nat, get_context_pct ⟨some 80000, none, none, none⟩ = natDigits m
      ∧ |contextPct ⟨some 80000, none, none, none⟩ - (m : ℚ)| ≤ 1 / 2) :=
  ⟨(context_pct_formatting ⟨some 160000, none, none, none⟩).1
      (by
        have htot : usedTokens ⟨some 160000, none, none, none⟩ = 160000 := by decide
        unfold contextPct
        rw [htot]
        norm_num),
    (context_pct_formatting ⟨some 80000, none, none, none⟩).2.1
      (by
        have htot : usedTokens ⟨some 80000, none, none, none⟩ = 80000 := by decide
        unfold contextPct
        rw [htot]
        norm_num)⟩

/-! ## Git status fragments: claim C8 -/

/-- Count marker as the spec states it: `tag` then the count, only when the
count is positive. -/
def countMarker (tag : Str) (n : Nat) : Str :=
  if 0 < n then tag ++ natDigits n else []

/-- Net line-delta marker as the spec states it: absent at zero, `Δ+N` for a
positive and `Δ-N` for a negative net delta. -/
def deltaMarker (delta : Int) : Str :=
  if delta ≠ 0 then
    if 0 < delta then " Δ+".toList ++ intStr delta else " Δ".toList ++ intStr delta
  else []

lemma countsOf_eq (ls : List Str) :
    MainRs.countsOf ls
      = ((ls.countP fun l => MainRs.statusKindOf l == MainRs.FileStatus.added),
          (ls.countP fun l => MainRs.statusKindOf l == MainRs.FileStatus.modified),
          (ls.countP fun l => MainRs.statusKindOf l == MainRs.FileStatus.deleted),
          (ls.countP fun l => MainRs.statusKindOf l == MainRs.FileStatus.untracked)) := by
  suffices h : ∀ acc : Nat × Nat × Nat × Nat,
      ls.foldl
        (fun acc line =>
          match MainRs.statusKindOf line with
          | .added => (acc.1 + 1, acc.2.1, acc.2.2.1, acc.2.2.2)
          | .modified => (acc.1, acc.2.1 + 1, acc.2.2.1, acc.2.2.2)
          | .deleted => (acc.1, acc.2.1, acc.2.2.1 + 1, acc.2.2.2)
          | .untracked => (acc.1, acc.2.1, acc.2.2.1, acc.2.2.2 + 1)
          | .other => acc)
        acc
      = (acc.1 + (ls.countP fun l => MainRs.statusKindOf l == MainRs.FileStatus.added),
          acc.2.1 + (ls.countP fun l => MainRs.statusKindOf l == MainRs.FileStatus.modified),
          acc.2.2.1 + (ls.countP fun l => MainRs.statusKindOf l == MainRs.FileStatus.deleted),
          acc.2.2.2 + (ls.countP fun l => MainRs.statusKindOf l == MainRs.FileStatus.untracked)) by
    simpa [MainRs.countsOf] using h (0, 0, 0, 0)
  induction ls with
  | nil => intro acc; simp
  | cons hd tl ih =>
    intro acc
    simp only [List.foldl_cons, List.countP_cons]
    rw [ih]
    cases h : MainRs.statusKindOf hd <;>
      simp only [h] <;>
      simp <;>
      omega

lemma diff_sums_eq (diffLines : List Str) :
    diffLines.foldl
        (fun acc line =>
          let parts := splitOnChar '\t' line
          if 2 ≤ parts.length then
            (acc.1 + (parseInt ((parts.get? 0).getD [])).getD 0,
              acc.2 + (parseInt ((parts.get? 1).getD [])).getD 0)
          else acc)
        ((0 : Int), (0 : Int))
      = ((diffLines.map MainRs.diffAdd).sum, (diffLines.map MainRs.diffDel).sum) := by
  suffices h : ∀ acc : Int × Int,
      diffLines.foldl
        (fun acc line =>
          let parts := splitOnChar '\t' line
          if 2 ≤ parts.length then
            (acc.1 + (parseInt ((parts.get? 0).getD [])).getD 0,
              acc.2 + (parseInt ((parts.get? 1).getD [])).getD 0)
          else acc)
        acc
      = (acc.1 + (diffLines.map MainRs.diffAdd).sum, acc.2 + (diffLines.map MainRs.diffDel).sum) by
    simpa using h (0, 0)
  induction diffLines with
  | nil => intro acc; simp
  | cons hd tl ih =>
    intro acc
    simp only [List.foldl_cons, List.map_cons, List.sum_cons]
    rw [ih]
    by_cases h : 2 ≤ (splitOnChar '\t' hd).length <;>
      simp only [MainRs.diffAdd, MainRs.diffDel, h, if_true, if_false, reduceIte, Prod.mk.injEq] <;>
      constructor <;>
      ring

/-- C8 counterexample: a working tree with one modified file, two commits
ahead of upstream and a non-empty stash.  The standalone-variant fragment is
exactly " ~1": it carries the ~N marker but neither the ⇡N arrow nor the
stash marker.  The library-variant fragment on the same state is " ⇡2 * ≡":
it carries the arrow and stash markers but not the ~N count.  No variant
emits all the markers the claim lists for every working tree. -/
theorem git_status_markers_counterexample :
    MainRs.get_git_status [" M foo.rs".toList] [] = " ~1".toList
    ∧ containsSeg "⇡2".toList (MainRs.get_git_status [" M foo.rs".toList] []) = false
    ∧ containsSeg "≡".toList (MainRs.get_git_status [" M foo.rs".toList] []) = false
    ∧ LibRs.get_git_status ["## main...origin/main [ahead 2]".toList, " M foo.rs".toList]
        "stash@0: x".toList = " ⇡2 * ≡".toList
    ∧ containsSeg "~1".toList
        (LibRs.get_git_status ["## main...origin/main [ahead 2]".toList, " M foo.rs".toList]
          "stash@0: x".toList) = false :=
  ⟨by decide, by decide, by decide, by decide, by decide⟩

/-- C8 (amended): the two variants split the listed markers.  The standalone
binary's fragment is exactly the `+N ~N -N ?N` count markers obtained by
classifying each two-character status code, followed by the `Δ+N`/`Δ-N` net
line-delta marker of the numstat query when non-zero; the library variant's
fragment is exactly the `⇡N`/`⇣N` ahead/behind arrows parsed from the
branch header, a ` *` dirty marker when entry lines follow the header, and a
` ≡` marker when the stash list output is non-empty (shown also on a
concrete header carrying ahead 2, behind 3). -/
theorem git_status_fragment_amended :
    (∀ statusLines diffLines : List Str, statusLines ≠ [] →
      MainRs.get_git_status statusLines diffLines
        = countMarker " +".toList
              (statusLines.countP fun l => MainRs.statusKindOf l == MainRs.FileStatus.added)
            ++ countMarker " ~".toList
              (statusLines.countP fun l => MainRs.statusKindOf l == MainRs.FileStatus.modified)
            ++ countMarker " -".toList
              (statusLines.countP fun l => MainRs.statusKindOf l == MainRs.FileStatus.deleted)
            ++ countMarker " ?".toList
              (statusLines.countP fun l => MainRs.statusKindOf l == MainRs.FileStatus.untracked)
            ++ (if diffLines = [] then []
                else deltaMarker
                  ((diffLines.map MainRs.diffAdd).sum - (diffLines.map MainRs.diffDel).sum)))
    ∧ (∀ (first : Str) (rest : List Str) (stash : Str),
        LibRs.get_git_status (first :: rest) stash
          = (if List.isPrefixOf "##".toList first
                then LibRs.aheadPart first ++ LibRs.behindPart first else [])
            ++ (if rest = [] then [] else " *".toList)
            ++ (if stash = [] then [] else " ≡".toList))
    ∧ LibRs.get_git_status ["## main...origin/main [ahead 2, behind 3]".toList]
        "stash@0: x".toList = " ⇡2 ⇣3 ≡".toList := by
  refine ⟨?_, ?_, by decide⟩
  · intro statusLines diffLines hne
    have hne' : statusLines.isEmpty = false := by
      simpa [List.isEmpty_iff] using hne
    simp only [MainRs.get_git_status, countsOf_eq, diff_sums_eq, hne', Bool.false_eq_true,
      if_false, countMarker, deltaMarker]
    by_cases hdiff : diffLines = []
    · subst hdiff
      simp [List.append_assoc]
    · have hdiff' : diffLines.isEmpty = false := by
        simpa [List.isEmpty_iff] using hdiff
      simp only [hdiff', Bool.false_eq_true, if_false, hdiff]
      split_ifs <;> simp [List.append_assoc]
  · intro first rest stash
    simp only [LibRs.get_git_status, List.length_cons]
    congr 1
    congr 1
    · cases rest <;> simp
    · cases stash <;> simp

/-- Witness for the amended C8 at a concrete working tree: one untracked
file and an empty diff for the standalone variant, and a header with ahead
and behind counts, one entry line and an empty stash for the library
variant. -/
theorem git_status_fragment_amended_witness :
    (MainRs.get_git_status ["?? new.rs".toList, "A  staged.rs".toList] []
      = countMarker " +".toList
            (["?? new.rs".toList, "A  staged.rs".toList].countP
              fun l => MainRs.statusKindOf l == MainRs.FileStatus.added)
          ++ countMarker " ~".toList
            (["?? new.rs".toList, "A  staged.rs".toList].countP
              fun l => MainRs.statusKindOf l == MainRs.FileStatus.modified)
          ++ countMarker " -".toList
            (["?? new.rs".toList, "A  staged.rs".toList].countP
              fun l => MainRs.statusKindOf l == MainRs.FileStatus.deleted)
          ++ countMarker " ?".toList
            (["?? new.rs".toList, "A  staged.rs".toList].countP
              fun l => MainRs.statusKindOf l == MainRs.FileStatus.untracked)
          ++ (if ([] : List Str) = [] then []
              else deltaMarker
                ((([] : List Str).map MainRs.diffAdd).sum
                  - (([] : List Str).map MainRs.diffDel).sum)))
    ∧ LibRs.get_git_status ["## main...origin/main [behind 4]".toList, " M x.rs".toList] []
      = (if List.isPrefixOf "##".toList "## main...origin/main [behind 4]".toList
            then LibRs.aheadPart "## main...origin/main [behind 4]".toList
              ++ LibRs.behindPart "## main...origin/main [behind 4]".toList else [])
        ++ (if ([" M x.rs".toList] : List Str) = [] then [] else " *".toList)
        ++ (if ([] : Str) = [] then [] else " ≡".toList) :=
  ⟨git_status_fragment_amended.1 ["?? new.rs".toList, "A  staged.rs".toList] [] (by decide),
    git_status_fragment_amended.2.1 "## main...origin/main [behind 4]".toList
      [" M x.rs".toList] []⟩

/-! ## Review status rendering: claim C9 -/

lemma renderPassBucket_length {names1 names2 : List Str}
    (h : names1.length = names2.length) :
    renderPassBucket names1 = renderPassBucket names2 := by
  simp only [renderPassBucket, h]
  cases names1 with
  | nil =>
    cases names2 with
    | nil => rfl
    | cons b bs => simp at h
  | cons a as =>
    cases names2 with
    | nil => simp at h
    | cons b bs => simp

/-- C9: get_pr_status renders the grouped check results as the fail bucket,
then pending, then pass.  A named (fail or pending) bucket shows the first
at most three names comma-joined, an ellipsis exactly when more than three
checks are in the bucket, and a count prefix exactly when more than one is;
a bucket beyond its first three names and its size contributes nothing.
The pass bucket renders only its count: its rendering is unchanged by any
change of check names that keeps the count. -/
theorem pr_status_bucket_rendering :
    (∀ (branch : Str) (now : Nat) (cs : List CheckRec),
        (get_pr_status branch ⟨none, none, none⟩ now (some cs)).1
          = trimChars (renderChecks cs))
    ∧ (∀ checks : List CheckRec,
        renderChecks checks
          = renderNamedBucket "\x1b[31m".toList "✗".toList (bucketNames "fail".toList checks)
            ++ renderNamedBucket "\x1b[33m".toList "○".toList
              (bucketNames "pending".toList checks)
            ++ renderPassBucket (bucketNames "pass".toList checks))
    ∧ (∀ (color sym : Str) (names : List Str), names ≠ [] →
        renderNamedBucket color sym names
          = color ++ sym ++ (if 1 < names.length then natDigits names.length else [])
            ++ ":".toList ++ List.intercalate ",".toList (names.take 3)
            ++ (if 3 < names.length then "...".toList else []) ++ "\x1b[0m ".toList)
    ∧ (∀ (color sym : Str) (names1 names2 : List Str),
        names1.take 3 = names2.take 3 → names1.length = names2.length →
        renderNamedBucket color sym names1 = renderNamedBucket color sym names2)
    ∧ (∀ checks1 checks2 : List CheckRec,
        bucketNames "fail".toList checks1 = bucketNames "fail".toList checks2 →
        bucketNames "pending".toList checks1 = bucketNames "pending".toList checks2 →
        (bucketNames "pass".toList checks1).length = (bucketNames "pass".toList checks2).length →
        renderChecks checks1 = renderChecks checks2) := by
  refine ⟨?_, fun _ => rfl, ?_, ?_, ?_⟩
  · intro branch now cs
    simp [get_pr_status, cacheHit, is_cache_valid]
  · intro color sym names hne
    have h : names.isEmpty = false := by simpa [List.isEmpty_iff] using hne
    simp only [renderNamedBucket, h, Bool.false_eq_true, if_false]
  · intro color sym names1 names2 htake hlen
    simp only [renderNamedBucket, hlen, htake]
    cases names1 with
    | nil =>
      cases names2 with
      | nil => rfl
      | cons b bs => simp at hlen
    | cons a as =>
      cases names2 with
      | nil => simp at hlen
      | cons b bs => simp
  · intro checks1 checks2 hfail hpending hpass
    simp only [renderChecks, hfail, hpending, renderPassBucket_length hpass]

/-- Witness for C9 at concrete checks: one failing check "lint", two pending
checks "build" and "test", one passing check "docs".  The rendered status of
a fresh call shows the fail bucket (single name, no count), then the pending
bucket (count 2), then the pass count; the named-bucket shape, the
first-three truncation and the pass-count invariance are instantiated on
these buckets. -/
theorem pr_status_bucket_rendering_witness :
    ((get_pr_status "main".toList ⟨none, none, none⟩ 5
        (some [⟨some "fail".toList, some "lint".toList⟩,
          ⟨some "pending".toList, some "build".toList⟩,
          ⟨some "pending".toList, some "test".toList⟩,
          ⟨some "pass".toList, some "docs".toList⟩])).1
      = trimChars (renderChecks [⟨some "fail".toList, some "lint".toList⟩,
          ⟨some "pending".toList, some "build".toList⟩,
          ⟨some "pending".toList, some "test".toList⟩,
          ⟨some "pass".toList, some "docs".toList⟩]))
    ∧ (renderNamedBucket "\x1b[31m".toList "✗".toList ["lint".toList]
      = "\x1b[31m".toList ++ "✗".toList
        ++ (if 1 < (["lint".toList] : List Str).length
              then natDigits (["lint".toList] : List Str).length else [])
        ++ ":".toList ++ List.intercalate ",".toList ((["lint".toList] : List Str).take 3)
        ++ (if 3 < (["lint".toList] : List Str).length then "...".toList else [])
        ++ "\x1b[0m ".toList)
    ∧ (renderNamedBucket "\x1b[33m".toList "○".toList
        ["a".toList, "b".toList, "c".toList, "d".toList]
      = renderNamedBucket "\x1b[33m".toList "○".toList
        ["a".toList, "b".toList, "c".toList, "e".toList])
    ∧ renderChecks [⟨some "pass".toList, some "docs".toList⟩]
      = renderChecks [⟨some "pass".toList, some "api".toList⟩] :=
  ⟨pr_status_bucket_rendering.1 "main".toList 5 _,
    pr_status_bucket_rendering.2.2.1 "\x1b[31m".toList "✗".toList ["lint".toList] (by decide),
    pr_status_bucket_rendering.2.2.2.1 "\x1b[33m".toList "○".toList
      ["a".toList, "b".toList, "c".toList, "d".toList]
      ["a".toList, "b".toList, "c".toList, "e".toList] (by decide) (by decide),
    pr_status_bucket_rendering.2.2.2.2 [⟨some "pass".toList, some "docs".toList⟩]
      [⟨some "pass".toList, some "api".toList⟩] (by decide) (by decide) (by decide)⟩
